import Mathlib

/-!
Verification of the WOFF codec (`Lib/woffTools/__init__.py`): the checksum
engine, the directory entry codec, the WOFF reader and writer, and the SFNT
conformance validator.  Byte buffers are modelled as `List Nat` (each element
a byte value), machine integers as `Nat`/`Int` with explicit reductions
modulo `0x100000000` where the source relies on 32-bit wraparound.
External fontTools/sstruct primitives (`calcChecksum`, `getSearchRange`,
the SFNT directory byte layouts) are modelled from the specification's
description of their byte-level contract.
-/

namespace WoffTools

/-- Embeds `calc4BytePaddedLength(length) = (length + 3) & ~3`.  On
nonnegative arbitrary-precision integers, `x & ~3` clears the two lowest
bits of `x`, i.e. subtracts `x % 4`; the theorem
`calc4BytePaddedLength_eq_ldiff` below identifies this definition with the
literal bit operation `Nat.ldiff (length + 3) 3`. -/
def calc4BytePaddedLength (length : Nat) : Nat :=
  (length + 3) - (length + 3) % 4

/-- Big-endian 32-bit words of a byte list (whole 4-byte groups; a trailing
group shorter than 4 bytes is dropped, callers pad first). -/
def words32 : List Nat → List Nat
  | b0 :: b1 :: b2 :: b3 :: rest =>
      (b0 * 0x1000000 + b1 * 0x10000 + b2 * 0x100 + b3) :: words32 rest
  | _ => []

/-- Modelled from the spec: fontTools `calcChecksum` — the specification's
big-endian 32-bit-word additive checksum over `data`, zero-padded to a
4-byte boundary if the input length is not a multiple of 4, with 32-bit
wrapping addition. -/
def calcChecksum (data : List Nat) : Nat :=
  let padded := data ++ List.replicate (calc4BytePaddedLength data.length - data.length) 0
  (words32 padded).sum % 0x100000000

/-- Embeds `calcTableChecksum(tag, data)`: for tag `head` the checksum is
computed with bytes 8-11 of `data` forced to zero (Python slicing clips on
short inputs), otherwise over `data` unchanged. -/
def calcTableChecksum (tag : String) (data : List Nat) : Nat :=
  if tag = "head" then
    calcChecksum (data.take 8 ++ [0, 0, 0, 0] ++ data.drop 12)
  else
    calcChecksum data

/-- The source `calcTableChecksum` has no failure path (string slicing and
concatenation are total in Python); this wraps it in `Except` to make the
absence of failure modes a stated fact rather than a typing accident. -/
def calcTableChecksumE (tag : String) (data : List Nat) : Except String Nat :=
  .ok (calcTableChecksum tag data)

/-! Byte-level codecs shared by the reader, writer and validator. -/

/-- Big-endian 16-bit value from (the first two elements of) a byte list. -/
def u16 (b : List Nat) : Nat :=
  (b.headD 0) * 0x100 + (b.tail.headD 0)

/-- Big-endian 32-bit value from (the first four elements of) a byte list. -/
def u32 (b : List Nat) : Nat :=
  (b.headD 0) * 0x1000000 + (b.tail.headD 0) * 0x10000
    + (b.tail.tail.headD 0) * 0x100 + (b.tail.tail.tail.headD 0)

/-- Signed big-endian 32-bit value (struct format `l`). -/
def i32be (b : List Nat) : Int :=
  let v := u32 b
  if v < 0x80000000 then (v : Int) else (v : Int) - 0x100000000

/-- Big-endian 16-bit encoding. -/
def u16be (v : Nat) : List Nat :=
  [v / 0x100 % 0x100, v % 0x100]

/-- Big-endian 32-bit encoding. -/
def u32be (v : Nat) : List Nat :=
  [v / 0x1000000 % 0x100, v / 0x10000 % 0x100, v / 0x100 % 0x100, v % 0x100]

/-- A 4-byte tag read from bytes, as a string (Python decodes `4s` to `str`). -/
def bytesToTag (b : List Nat) : String :=
  String.mk (b.map Char.ofNat)

/-- The byte encoding of a tag string. -/
def tagBytes (s : String) : List Nat :=
  s.toList.map Char.toNat

/-- Byte-lexicographic order on characters lists (Python 2 `str` comparison). -/
def charListLe : List Char → List Char → Bool
  | [], _ => true
  | _ :: _, [] => false
  | a :: as, b :: bs =>
      if a.toNat < b.toNat then true
      else if b.toNat < a.toNat then false
      else charListLe as bs

/-- Byte-lexicographic order on strings (Python 2 `str` comparison). -/
def strLe (a b : String) : Bool :=
  charListLe a.toList b.toList

/-- `sstruct.calcsize(woffHeaderFormat)`: 44 bytes. -/
def woffHeaderSize : Nat := 44

/-- `sstruct.calcsize(woffDirectoryEntryFormat)`: 20 bytes. -/
def woffDirectoryEntrySize : Nat := 20

/-- Modelled from the spec: the external SFNT header size constant (12 bytes). -/
def sfntDirectorySize : Nat := 12

/-- Modelled from the spec: the external SFNT directory entry size constant (16 bytes). -/
def sfntDirectoryEntrySize : Nat := 16

/-- Result-shape helper: whether an `Except` value is a success. -/
def exceptIsOk {ε α : Type} : Except ε α → Bool
  | .ok _ => true
  | .error _ => false

/-- Result-shape helper: whether an `Except` value is a failure. -/
def exceptIsError {ε α : Type} : Except ε α → Bool
  | .ok _ => false
  | .error _ => true

/-! Writer: directory entries, table preparation, the session state machine,
and the `head` checkSumAdjustment computation. -/

/-- Embeds `WOFFDirectoryEntry` as built by the writer.  Python leaves the
length/checksum attributes as whatever value (possibly `None`) was assigned,
so they are `Option Nat` here. -/
structure WOFFDirectoryEntry where
  tag : String
  offset : Nat
  origLength : Option Nat
  origChecksum : Option Nat
  compLength : Option Nat
deriving DecidableEq

/-- Embeds `WOFFWriter._prepTable(..., entryOnly=True)`: no data prep, the
checksum is computed on the given data, `compLength` is set to `0`, and only
the entry is returned. -/
def prepTableEntry (tag : String) (data : List Nat) (origLength : Option Nat) :
    WOFFDirectoryEntry :=
  { tag := tag, offset := 0, origLength := origLength,
    origChecksum := some (calcTableChecksum tag data), compLength := some 0 }

/-- Embeds `WOFFWriter._prepTable(..., entryOnly=False)`.  `compress` stands
for `zlib.compress(..., self.compressionLevel)`.  With no precomputed
`compLength` the data is compressed, and kept uncompressed whenever
compression does not strictly shrink it; with a precomputed `compLength`
the given data and metadata are stored as-is. -/
def prepTable (compress : List Nat → List Nat) (tag : String) (data : List Nat)
    (origLength origChecksum compLength : Option Nat) :
    WOFFDirectoryEntry × List Nat :=
  match compLength with
  | none =>
      let origData := data
      let origLength := origData.length
      let origChecksum := calcTableChecksum tag data
      let compData := compress origData
      let compLength := compData.length
      if origLength ≤ compLength then
        ({ tag := tag, offset := 0, origLength := some origLength,
           origChecksum := some origChecksum, compLength := some origLength },
         origData)
      else
        ({ tag := tag, offset := 0, origLength := some origLength,
           origChecksum := some origChecksum, compLength := some compLength },
         compData)
  | some cl =>
      ({ tag := tag, offset := 0, origLength := origLength,
         origChecksum := origChecksum, compLength := some cl },
       data)

/-- Insert-or-replace into an association list, modelling assignment into the
Python dict `self.tables[tag] = value`. -/
def assocSet {β : Type} (l : List (String × β)) (k : String) (v : β) :
    List (String × β) :=
  if l.any (fun p => p.1 == k) then
    l.map (fun p => if p.1 == k then (k, v) else p)
  else
    l ++ [(k, v)]

/-- The writer session state: the fields of `WOFFWriter` that the table
protocol reads or writes.  `tables` models the `self.tables` dict as an
association list from tag to `(index, entry, data)`. -/
structure WriterState where
  numTables : Nat
  recalculateHeadChecksum : Bool
  tables : List (String × (Nat × WOFFDirectoryEntry × List Nat))

/-- Embeds `WOFFWriter.__init__` (the table-protocol fields). -/
def WOFFWriterInit (numTables : Nat) (recalculateHeadChecksum : Bool) :
    WriterState :=
  { numTables := numTables, recalculateHeadChecksum := recalculateHeadChecksum,
    tables := [] }

/-- Embeds `WOFFWriter.setTable`.  `compress`/`decompress` stand for
`zlib.compress`/`zlib.decompress`.  When head-checksum recalculation is on
and the tag is `head`, the data is held uncompressed (after decompressing a
precompressed payload) and only an entry is prepared; otherwise the table is
prepared (and possibly compressed) immediately.  The stored index is
`len(self.tables)` at call time. -/
def setTable (compress decompress : List Nat → List Nat) (st : WriterState)
    (tag : String) (data : List Nat)
    (origLength origChecksum compLength : Option Nat) : WriterState :=
  if st.recalculateHeadChecksum ∧ tag = "head" then
    let data := match compLength with
      | some _ => decompress data
      | none => data
    let entry := prepTableEntry tag data (some data.length)
    { st with tables := assocSet st.tables tag (st.tables.length, entry, data) }
  else
    let prepped := prepTable compress tag data origLength origChecksum compLength
    { st with tables := assocSet st.tables tag (st.tables.length, prepped.1, prepped.2) }

/-- One recorded `setTable` call. -/
structure SetTableOp where
  tag : String
  data : List Nat
  origLength : Option Nat
  origChecksum : Option Nat
  compLength : Option Nat
deriving DecidableEq

/-- Apply a sequence of `setTable` calls to a writer state. -/
def applyOps (compress decompress : List Nat → List Nat) (st : WriterState)
    (ops : List SetTableOp) : WriterState :=
  ops.foldl
    (fun s o => setTable compress decompress s o.tag o.data o.origLength o.origChecksum o.compLength)
    st

/-- Embeds the table-count check at the top of `WOFFWriter.close()`:
`if self.numTables != len(self.tables): raise WOFFLibError(...)`. -/
def closeTablesCheck (st : WriterState) : Except String Unit :=
  if st.numTables ≠ st.tables.length then
    .error ("wrong number of tables; expected " ++ Nat.repr st.numTables
      ++ ", found " ++ Nat.repr st.tables.length)
  else
    .ok ()

/-- The per-table inputs to `WOFFWriter._handleHeadChecksum`: the insertion
index and the `tag`, `origChecksum`, `origLength` fields of each held entry. -/
structure WriterTable where
  index : Nat
  tag : String
  origChecksum : Nat
  origLength : Nat
deriving DecidableEq

/-- Modelled from the spec: fontTools `getSearchRange(numTables)` — the
standard binary-search-range formula: largest power of two at most
`numTables` (times 16), its log2, and the remainder range. -/
def getSearchRange (numTables : Nat) : Nat × Nat × Nat :=
  let exponent := Nat.log2 numTables
  let searchRange := 2 ^ exponent * 16
  (searchRange, exponent, numTables * 16 - searchRange)

/-- Modelled from the spec: the external SFNT header byte layout —
`sfntVersion` (4 bytes) then `numTables`, `searchRange`, `entrySelector`,
`rangeShift` as big-endian 16-bit fields. -/
def sfntDirHeaderBytes (flavor : List Nat) (numTables : Nat) : List Nat :=
  let sr := getSearchRange numTables
  flavor ++ u16be numTables ++ u16be sr.1 ++ u16be sr.2.1 ++ u16be sr.2.2

/-- Modelled from the spec: the external SFNT directory entry byte layout —
`tag` (4 bytes) then `checkSum`, `offset`, `length` as big-endian 32-bit
fields. -/
def sfntEntryBytes (t : WriterTable) (offset : Nat) : List Nat :=
  tagBytes t.tag ++ u32be t.origChecksum ++ u32be offset ++ u32be t.origLength

/-- Tables in insertion order: `sorted(self.tables.values())` sorts the
`(index, entry, data)` triples by their leading index. -/
def sortByIndex (tables : List WriterTable) : List WriterTable :=
  List.insertionSort (fun a b => a.index ≤ b.index) tables

/-- Sequential virtual SFNT offsets, each table advancing the cursor by its
4-byte-padded original length. -/
def assignOffsets : Nat → List WriterTable → List (WriterTable × Nat)
  | _, [] => []
  | offset, t :: rest =>
      (t, offset) :: assignOffsets (offset + calc4BytePaddedLength t.origLength) rest

/-- Concatenation of the images of a list under a list-valued function. -/
def concatMap {α β : Type} (f : α → List β) : List α → List β
  | [] => []
  | a :: l => f a ++ concatMap f l

/-- Embeds the virtual SFNT directory built by
`WOFFWriter._handleHeadChecksum`: the SFNT header for `numTables` tables,
followed by one entry per table — offsets assigned in insertion order
starting right after the header and directory, entries emitted sorted by
tag (`sorted(sfntEntries.items())`, byte-lexicographic). -/
def virtualSFNTDirectory (flavor : List Nat) (tables : List WriterTable) :
    List Nat :=
  let hdr := sfntDirHeaderBytes flavor tables.length
  let entries := assignOffsets
    (sfntDirectorySize + sfntDirectoryEntrySize * tables.length)
    (sortByIndex tables)
  let tagSorted := List.insertionSort
    (fun a b : WriterTable × Nat => strLe a.1.tag b.1.tag = true) entries
  hdr ++ concatMap (fun p => sfntEntryBytes p.1 p.2) tagSorted

/-- Embeds `checksum = numpy.add.reduce(checksums)` over every table's
original checksum plus the checksum of the virtual directory bytes: int32
addition wraps, so the value is the sum reduced modulo `0x100000000`. -/
def totalChecksumSum (flavor : List Nat) (tables : List WriterTable) : Nat :=
  ((tables.map (fun t => t.origChecksum)).sum
    + calcChecksum (virtualSFNTDirectory flavor tables)) % 0x100000000

/-- Embeds `checkSumAdjustment = numpy.array(0xb1b0afbaL - 0x100000000L,
numpy.int32) - checksum` as its unsigned 32-bit residue: `0xb1b0afba` minus
the total sum, with 32-bit wraparound. -/
def headCheckSumAdjustment (flavor : List Nat) (tables : List WriterTable) : Nat :=
  (0xb1b0afba + 0x100000000 - totalChecksumSum flavor tables) % 0x100000000

/-! Reader: header and directory parsing at construction time. -/

/-- Embeds the fields unpacked from `woffHeaderFormat` (big-endian; `4s`
fields as raw bytes, `H` unsigned 16-bit, `l` signed 32-bit). -/
structure WOFFHeaderRec where
  signature : List Nat
  flavor : List Nat
  length : Int
  numTables : Nat
  reserved : Nat
  totalSFNTSize : Int
  majorVersion : Nat
  minorVersion : Nat
  metaOffset : Int
  metaLength : Int
  metaOrigLength : Int
  privOffset : Int
  privLength : Int
deriving DecidableEq

/-- Embeds `sstruct.unpack(woffHeaderFormat, bytes, self)`: fails (like
sstruct) when the buffer is not exactly 44 bytes, otherwise splits the
fixed layout.  No field is validated. -/
def unpackWOFFHeader (b : List Nat) : Except String WOFFHeaderRec :=
  if b.length = woffHeaderSize then
    .ok { signature := b.take 4
        , flavor := (b.drop 4).take 4
        , length := i32be ((b.drop 8).take 4)
        , numTables := u16 ((b.drop 12).take 2)
        , reserved := u16 ((b.drop 14).take 2)
        , totalSFNTSize := i32be ((b.drop 16).take 4)
        , majorVersion := u16 ((b.drop 20).take 2)
        , minorVersion := u16 ((b.drop 22).take 2)
        , metaOffset := i32be ((b.drop 24).take 4)
        , metaLength := i32be ((b.drop 28).take 4)
        , metaOrigLength := i32be ((b.drop 32).take 4)
        , privOffset := i32be ((b.drop 36).take 4)
        , privLength := i32be ((b.drop 40).take 4) }
  else
    .error "sstruct: wrong data size"

/-- Embeds `WOFFDirectoryEntry` as unpacked from `woffDirectoryEntryFormat`
(all numeric fields `l`, signed 32-bit). -/
structure WOFFDirEntryRec where
  tag : String
  offset : Int
  compLength : Int
  origLength : Int
  origChecksum : Int
deriving DecidableEq

/-- Embeds `WOFFDirectoryEntry.fromFile`: unpack 20 bytes, failing (like
sstruct) when fewer are available. -/
def unpackWOFFDirEntry (b : List Nat) : Except String WOFFDirEntryRec :=
  if b.length = woffDirectoryEntrySize then
    .ok { tag := bytesToTag (b.take 4)
        , offset := i32be ((b.drop 4).take 4)
        , compLength := i32be ((b.drop 8).take 4)
        , origLength := i32be ((b.drop 12).take 4)
        , origChecksum := i32be ((b.drop 16).take 4) }
  else
    .error "sstruct: wrong data size"

/-- The reader's directory loop: `numTables` sequential 20-byte reads from
`file` starting at `pos`; each short read fails the construction. -/
def readWOFFEntries (file : List Nat) : Nat → Nat →
    Except String (List WOFFDirEntryRec)
  | 0, _ => .ok []
  | n + 1, pos =>
    match unpackWOFFDirEntry ((file.drop pos).take woffDirectoryEntrySize) with
    | .error e => .error e
    | .ok e =>
      match readWOFFEntries file n (pos + woffDirectoryEntrySize) with
      | .error err => .error err
      | .ok rest => .ok (e :: rest)

/-- The reader state after construction: the unpacked header and the
`self.tables` dict keyed by tag. -/
structure WOFFReaderState where
  header : WOFFHeaderRec
  tables : List (String × WOFFDirEntryRec)

/-- Embeds `WOFFReader.__init__`: read 44 header bytes from position 0,
unpack them (no signature check appears in the source), then read
`numTables` directory entries into the tag-keyed dict. -/
def WOFFReaderInit (file : List Nat) : Except String WOFFReaderState :=
  match unpackWOFFHeader (file.take woffHeaderSize) with
  | .error e => .error e
  | .ok header =>
    match readWOFFEntries file header.numTables woffHeaderSize with
    | .error e => .error e
    | .ok entries =>
      .ok { header := header
          , tables := entries.foldl (fun t e => assocSet t e.tag e) [] }

/-! SFNT conformance validator. -/

/-- An SFNT directory entry as re-derived by `checkSFNTConformance` from the
byte image (tag, checkSum, offset, length). -/
structure SFNTDirEntry where
  tag : String
  checkSum : Nat
  offset : Nat
  length : Nat
deriving DecidableEq

/-- Diagnostic built by `_testOffsetValidity`. -/
def offsetMsg (tag : String) : String :=
  "The offset to the " ++ tag ++ " table is not valid."

/-- Diagnostic built by `_testLengthValidity`. -/
def lengthMsg (tag : String) : String :=
  "The length of the " ++ tag ++ " table is not valid."

/-- Diagnostic built by `_testPadding`; `prevTable` starts out as Python
`None`, which `%s` renders as the string `None`. -/
def paddingMsg (prevTable : Option String) : String :=
  "The " ++ (match prevTable with | none => "None" | some t => t)
    ++ " table is not properly padded."

/-- Diagnostic built by `_testFinalTablePadding`. -/
def finalPadMsg (tag : String) : String :=
  "The final table (" ++ tag ++ ") is not properly padded."

/-- Diagnostic built by `_testGaps`. -/
def gapMsg (prevTag tag : String) : String :=
  "Improper padding between the " ++ prevTag ++ " and " ++ tag ++ " tables."

/-- Diagnostic built by `_testGapAfterFinalTable`. -/
def endGapMsg : String :=
  "Improper padding at the end of the file."

/-- Diagnostic built by `_testCheckSums`. -/
def checksumMsg (tag : String) : String :=
  "Invalid checksum for the " ++ tag ++ " table."

/-- The entry loop of `_testOffsetValidity`: each entry contributes a
message when its offset is below `minOffset` and another when it is above
`dataLength`. -/
def offValidLoop (minOffset dataLength : Nat) : List SFNTDirEntry → List String
  | [] => []
  | e :: rest =>
      (if e.offset < minOffset then [offsetMsg e.tag] else [])
        ++ (if dataLength < e.offset then [offsetMsg e.tag] else [])
        ++ offValidLoop minOffset dataLength rest

/-- Embeds `_testOffsetValidity(dataLength, tableDirectory)`: every offset
must lie between the end of the header plus directory and the end of the
buffer. -/
def testOffsetValidity (dataLength : Nat) (dir : List SFNTDirEntry) :
    List String :=
  offValidLoop (sfntDirectorySize + sfntDirectoryEntrySize * dir.length)
    dataLength dir

/-- The entry loop of `_testLengthValidity`. -/
def lenValidLoop (dataLength : Nat) : List SFNTDirEntry → List String
  | [] => []
  | e :: rest =>
      (if dataLength < e.offset + e.length then [lengthMsg e.tag] else [])
        ++ lenValidLoop dataLength rest

/-- Embeds `_testLengthValidity(dataLength, tableDirectory)`: `offset +
length` must not exceed the buffer length. -/
def testLengthValidity (dataLength : Nat) (dir : List SFNTDirEntry) :
    List String :=
  lenValidLoop dataLength dir

/-- The entry loop of `_testPadding`, carrying `prevTable` exactly as the
source does: it starts as `None` and becomes the tag of the entry just
iterated, in directory (iteration) order. -/
def paddingLoop (prevTable : Option String) : List SFNTDirEntry → List String
  | [] => []
  | e :: rest =>
      (if e.offset % 4 ≠ 0 then [paddingMsg prevTable] else [])
        ++ paddingLoop (some e.tag) rest

/-- Embeds `_testPadding(tableDirectory)`: every table offset must be a
multiple of 4; a violation is reported against `prevTable`. -/
def testPadding (dir : List SFNTDirEntry) : List String :=
  paddingLoop none dir

/-- Embeds `_testFinalTablePadding(dataLength, numTables, finalTableTag)`.
The subtraction is on Python ints; in every call the validator makes on the
non-early-exit path, `dataLength` is at least the header-plus-directory
size, so `Nat` subtraction agrees. -/
def testFinalTablePadding (dataLength numTables : Nat) (finalTableTag : String) :
    List String :=
  if (dataLength - (sfntDirectorySize + sfntDirectoryEntrySize * numTables)) % 4 ≠ 0 then
    [finalPadMsg finalTableTag]
  else
    []

/-- The `(offset, entry)` pairs of a directory sorted ascending by offset:
`sorted(sorter)` over `sorter = [(entry["offset"], entry), ...]`. -/
def sortedByOffset (dir : List SFNTDirEntry) : List (Nat × SFNTDirEntry) :=
  List.insertionSort (fun a b : Nat × SFNTDirEntry => a.1 ≤ b.1)
    (dir.map (fun e => (e.offset, e)))

/-- The pair loop of `_testGaps`: the state is `None` before the first
entry and `(prevTag, prevEnd)` afterwards.  A gap larger than 3 bytes
between `prevEnd` and the next offset is diagnosed.  (Python computes the
difference on ints where an overlap is negative; `Nat` subtraction clamps
to 0 — both fail the `> 3` test, so the branch taken agrees.) -/
def gapsLoop : Option (String × Nat) → List (Nat × SFNTDirEntry) → List String
  | _, [] => []
  | none, (offset, e) :: rest =>
      gapsLoop (some (e.tag, offset + e.length)) rest
  | some (prevTag, prevEnd), (offset, e) :: rest =>
      (if offset - prevEnd > 3 then [gapMsg prevTag e.tag] else [])
        ++ gapsLoop (some (e.tag, offset + e.length)) rest

/-- Embeds `_testGaps(tableDirectory)`: sorted by offset, adjacent tables
may be separated by at most 3 padding bytes. -/
def testGaps (dir : List SFNTDirEntry) : List String :=
  gapsLoop none (sortedByOffset dir)

/-- Embeds `_testGapAfterFinalTable(dataLength, tableDirectory)`: at most 3
bytes may follow the offset-wise last table.  (The source indexes
`sorted(sorter)[-1]` and is only called on a nonempty directory; the empty
case returns no diagnostics here.) -/
def testGapAfterFinalTable (dataLength : Nat) (dir : List SFNTDirEntry) :
    List String :=
  match (sortedByOffset dir).getLast? with
  | none => []
  | some (offset, e) =>
      if dataLength - (offset + e.length) > 3 then [endGapMsg] else []

/-- The entry loop of `_testCheckSums` over entries paired with their loaded
byte slices. -/
def ckLoop : List (SFNTDirEntry × List Nat) → List String
  | [] => []
  | (e, data) :: rest =>
      (if e.checkSum ≠ calcTableChecksum e.tag data then [checksumMsg e.tag] else [])
        ++ ckLoop rest

/-- Embeds `_testCheckSums`: every stored checksum must equal the engine's
recomputation over the table's actual bytes. -/
def testCheckSums (loaded : List (SFNTDirEntry × List Nat)) : List String :=
  ckLoop loaded

/-- Embeds the SFNT entry unpack `sstruct.unpack(sfntDirectoryEntryFormat,
directoryData[:sfntDirectoryEntrySize])`: fails like sstruct when fewer
than 16 bytes remain. -/
def unpackSFNTEntry (b : List Nat) : Except String SFNTDirEntry :=
  if b.length = sfntDirectoryEntrySize then
    .ok { tag := bytesToTag (b.take 4)
        , checkSum := u32 ((b.drop 4).take 4)
        , offset := u32 ((b.drop 8).take 4)
        , length := u32 ((b.drop 12).take 4) }
  else
    .error "sstruct: wrong data size"

/-- The directory loop of `checkSFNTConformance`: `numTables` entries peeled
off the front of `directoryData`, 16 bytes at a time. -/
def parseSFNTEntries : Nat → List Nat → Except String (List SFNTDirEntry)
  | 0, _ => .ok []
  | n + 1, directoryData =>
    match unpackSFNTEntry (directoryData.take sfntDirectoryEntrySize) with
    | .error e => .error e
    | .ok e =>
      match parseSFNTEntries n (directoryData.drop sfntDirectoryEntrySize) with
      | .error err => .error err
      | .ok rest => .ok (e :: rest)

/-- The header-and-directory parse at the top of `checkSFNTConformance`:
unpack the 12-byte SFNT header (failing like sstruct on a shorter buffer),
read `numTables` from bytes 4-5, then unpack the directory entries. -/
def parseSFNT (data : List Nat) : Except String (Nat × List SFNTDirEntry) :=
  if (data.take sfntDirectorySize).length = sfntDirectorySize then
    let numTables := u16 ((data.drop 4).take 2)
    let directoryData := (data.drop sfntDirectorySize).take
      (sfntDirectoryEntrySize * numTables)
    match parseSFNTEntries numTables directoryData with
    | .error e => .error e
    | .ok dir => .ok (numTables, dir)
  else
    .error "sstruct: wrong data size"

/-- Embeds `checkSFNTConformance(data)`: parse the header and directory,
run the offset and length sanity tests and stop there if either found an
error; otherwise load each table's bytes and run the padding, final-table
padding, gap, end-gap and checksum tests, returning all diagnostics.
(Indexing `tableDirectory[-1]` raises on an empty directory.) -/
def checkSFNTConformance (data : List Nat) : Except String (List String) :=
  match parseSFNT data with
  | .error e => .error e
  | .ok (numTables, tableDirectory) =>
    let errors := testOffsetValidity data.length tableDirectory
      ++ testLengthValidity data.length tableDirectory
    if errors = [] then
      match tableDirectory.getLast? with
      | none => .error "list index out of range"
      | some lastEntry =>
        let loaded := tableDirectory.map
          (fun e => (e, (data.drop e.offset).take e.length))
        .ok (testPadding tableDirectory
          ++ testFinalTablePadding data.length numTables lastEntry.tag
          ++ testGaps tableDirectory
          ++ testGapAfterFinalTable data.length tableDirectory
          ++ testCheckSums loaded)
    else
      .ok errors

/-- Adjacent pairs of a list, in order. -/
def adjPairs {α : Type} : List α → List (α × α)
  | a :: b :: rest => (a, b) :: adjPairs (b :: rest)
  | _ => []

/-- The gap decision for one adjacent (offset-sorted) pair: a diagnostic
naming both tables exactly when the gap exceeds 3 bytes. -/
def gapCheck (p : (Nat × SFNTDirEntry) × (Nat × SFNTDirEntry)) : Option String :=
  if p.2.1 - (p.1.1 + p.1.2.length) > 3 then
    some (gapMsg p.1.2.tag p.2.2.tag)
  else
    none

/-- The padding decision for one entry paired with its predecessor tag. -/
def paddingCheck (p : Option String × SFNTDirEntry) : Option String :=
  if p.2.offset % 4 ≠ 0 then some (paddingMsg p.1) else none

/-- Append a key to a key list unless it is already present: the effect of
one dict assignment on the dict's key set. -/
def keyInsert (ks : List String) (t : String) : List String :=
  if t ∈ ks then ks else ks ++ [t]

/-! Helper lemmas. -/

/-- Clearing the two low bits of `m` rounds it down to a multiple of 4. -/
theorem ldiff_three_eq (m : Nat) : Nat.ldiff m 3 = m / 4 * 4 := by
  have h4 : m / 4 * 4 = (m >>> 2) <<< 2 := by
    rw [Nat.shiftRight_eq_div_pow, Nat.shiftLeft_eq]
  apply Nat.eq_of_testBit_eq
  intro i
  rw [Nat.testBit_ldiff, h4, Nat.testBit_shiftLeft, Nat.testBit_shiftRight]
  match i with
  | 0 =>
    have h3 : Nat.testBit 3 0 = true := by decide
    simp [h3]
  | 1 =>
    have h3 : Nat.testBit 3 1 = true := by decide
    simp [h3]
  | (i + 2) =>
    have h3 : Nat.testBit 3 (i + 2) = false := by
      refine Nat.testBit_lt_two_pow ?_
      calc (3 : Nat) < 2 ^ 2 := by norm_num
        _ ≤ 2 ^ (i + 2) := Nat.pow_le_pow_right (by norm_num) (by omega)
    simp [h3, Nat.add_comm]

/-- The definition agrees with the literal bit operation of the source,
`(length + 3) & ~3`, which on nonnegative values is `Nat.ldiff (length + 3) 3`. -/
theorem calc4BytePaddedLength_eq_ldiff (n : Nat) :
    calc4BytePaddedLength n = Nat.ldiff (n + 3) 3 := by
  rw [ldiff_three_eq]
  unfold calc4BytePaddedLength
  omega

/-- The padded length in arithmetic form. -/
theorem calc4BytePaddedLength_eq (n : Nat) :
    calc4BytePaddedLength n = (n + 3) / 4 * 4 := by
  unfold calc4BytePaddedLength
  omega

/-- C10: `calc4BytePaddedLength n = (n + 3) & ~3` is the least multiple of 4
that is at least `n`: it is a multiple of 4, lies between `n` and `n + 3`,
is below every multiple of 4 at least `n`, and fixes exactly the multiples
of 4. -/
theorem calc4BytePaddedLength_correct (n : Nat) :
    calc4BytePaddedLength n = Nat.ldiff (n + 3) 3
    ∧ calc4BytePaddedLength n % 4 = 0
    ∧ n ≤ calc4BytePaddedLength n
    ∧ calc4BytePaddedLength n ≤ n + 3
    ∧ (∀ m : Nat, m % 4 = 0 → n ≤ m → calc4BytePaddedLength n ≤ m)
    ∧ (calc4BytePaddedLength n = n ↔ n % 4 = 0) := by
  refine ⟨calc4BytePaddedLength_eq_ldiff n, ?_, ?_, ?_, ?_, ?_⟩ <;>
    rw [calc4BytePaddedLength_eq]
  · omega
  · omega
  · omega
  · exact fun m h1 h2 => by omega
  · omega

/-- Witness for C10 at `n = 5`, `m = 8`. -/
theorem calc4BytePaddedLength_correct_witness : calc4BytePaddedLength 5 ≤ 8 :=
  (calc4BytePaddedLength_correct 5).2.2.2.2.1 8 (by decide) (by decide)

/-- C2: the checksum engine is a pure function (deterministic by
construction); for tag `head` it checksums `data` with bytes 8-11 forced to
zero, and is therefore unchanged when any 4-byte value is spliced into
bytes 8-11 of a buffer of length at least 12. -/
theorem calcTableChecksum_head_invariant (data v : List Nat) :
    calcTableChecksum "head" data
        = calcChecksum (data.take 8 ++ [0, 0, 0, 0] ++ data.drop 12)
    ∧ (12 ≤ data.length → v.length = 4 →
        calcTableChecksum "head" (data.take 8 ++ v ++ data.drop 12)
          = calcTableChecksum "head" data) := by
  refine ⟨by simp [calcTableChecksum], fun hlen hv => ?_⟩
  have h8 : (data.take 8).length = 8 := by
    simp only [List.length_take]
    omega
  have h12 : (data.take 8 ++ v).length = 12 := by
    simp only [List.length_append, h8, hv]
  have ht : (data.take 8 ++ v ++ data.drop 12).take 8 = data.take 8 := by
    rw [List.append_assoc]
    exact List.take_left' h8
  have hd : (data.take 8 ++ v ++ data.drop 12).drop 12 = data.drop 12 := by
    exact List.drop_left' h12
  simp only [calcTableChecksum, ht, hd]
  simp

/-- Witness for C2 on a 12-byte buffer with `[1, 2, 3, 4]` spliced into
bytes 8-11. -/
theorem calcTableChecksum_head_invariant_witness :
    calcTableChecksum "head"
        ((List.replicate 12 7).take 8 ++ [1, 2, 3, 4] ++ (List.replicate 12 7).drop 12)
      = calcTableChecksum "head" (List.replicate 12 7) :=
  (calcTableChecksum_head_invariant (List.replicate 12 7) [1, 2, 3, 4]).2
    (by decide) (by decide)

/-- C9 counterexample: the claim says `checksum("head", data)` fails for
every `data` shorter than 12 bytes, but the source computes a value (Python
slicing clips): on the empty buffer it returns `0` rather than failing. -/
theorem calcTableChecksum_short_head_cex :
    ([] : List Nat).length < 12
    ∧ calcTableChecksumE "head" [] = .ok 0 := by
  constructor
  · decide
  · rfl

/-- C9 (amended): `checksum(tag, data)` has no failure mode at all — for
every tag and data, including `head` inputs shorter than 12 bytes, it
returns a value. -/
theorem calcTableChecksumE_total (tag : String) (data : List Nat) :
    calcTableChecksumE tag data = .ok (calcTableChecksum tag data) := rfl

/-- C4: for a table given without precomputed compression metadata, the
writer's table preparation stores the original bytes with
`compLength = origLength = len(data)` whenever compression does not produce
strictly smaller output, and otherwise stores the compressed bytes with
`compLength < origLength`. -/
theorem prepTable_compression_policy (compress : List Nat → List Nat)
    (tag : String) (data : List Nat) :
    (data.length ≤ (compress data).length →
      prepTable compress tag data none none none
        = ({ tag := tag, offset := 0, origLength := some data.length,
             origChecksum := some (calcTableChecksum tag data),
             compLength := some data.length }, data))
    ∧ ((compress data).length < data.length →
      prepTable compress tag data none none none
        = ({ tag := tag, offset := 0, origLength := some data.length,
             origChecksum := some (calcTableChecksum tag data),
             compLength := some (compress data).length }, compress data)) := by
  constructor
  · intro h
    simp only [prepTable]
    rw [if_pos h]
  · intro h
    simp only [prepTable]
    rw [if_neg (by omega)]

/-- Witness for C4: the identity function never shrinks (stored original,
`compLength = origLength = 3`); the empty-output function shrinks
(`compLength = 0 < 1`). -/
theorem prepTable_compression_policy_witness :
    prepTable (fun l => l) "cmap" [1, 2, 3] none none none
      = ({ tag := "cmap", offset := 0, origLength := some 3,
           origChecksum := some (calcTableChecksum "cmap" [1, 2, 3]),
           compLength := some 3 }, [1, 2, 3])
    ∧ prepTable (fun _ => []) "cmap" [9] none none none
      = ({ tag := "cmap", offset := 0, origLength := some 1,
           origChecksum := some (calcTableChecksum "cmap" [9]),
           compLength := some 0 }, ([] : List Nat)) :=
  ⟨(prepTable_compression_policy (fun l => l) "cmap" [1, 2, 3]).1 (by decide),
   (prepTable_compression_policy (fun _ => []) "cmap" [9]).2 (by decide)⟩

/-- The key set after a dict assignment. -/
theorem assocSet_keys {β : Type} (l : List (String × β)) (k : String) (v : β) :
    (assocSet l k v).map Prod.fst = keyInsert (l.map Prod.fst) k := by
  unfold assocSet keyInsert
  by_cases h : l.any (fun p => p.1 == k) = true
  · rw [if_pos h]
    have hk : k ∈ l.map Prod.fst := by
      rcases List.any_eq_true.mp h with ⟨p, hp, he⟩
      exact List.mem_map.mpr ⟨p, hp, beq_iff_eq.mp he⟩
    rw [if_pos hk, List.map_map]
    apply List.map_congr_left
    intro p hp
    by_cases hpk : (p.1 == k) = true
    · simp only [Function.comp_apply, if_pos hpk]
      exact (beq_iff_eq.mp hpk).symm
    · simp only [Function.comp_apply, if_neg hpk]
  · rw [if_neg h]
    have hk : k ∉ l.map Prod.fst := by
      intro hmem
      rcases List.mem_map.mp hmem with ⟨p, hp, he⟩
      exact h (List.any_eq_true.mpr ⟨p, hp, beq_iff_eq.mpr he⟩)
    rw [if_neg hk, List.map_append]
    rfl

/-- The key set after one `setTable` call: tag inserted (or left in place)
regardless of which branch ran. -/
theorem setTable_keys (compress decompress : List Nat → List Nat)
    (st : WriterState) (tag : String) (data : List Nat)
    (o1 o2 o3 : Option Nat) :
    (setTable compress decompress st tag data o1 o2 o3).tables.map Prod.fst
      = keyInsert (st.tables.map Prod.fst) tag := by
  unfold setTable
  split
  · exact assocSet_keys _ _ _
  · exact assocSet_keys _ _ _

/-- The keys of the writer's table dict after a sequence of `setTable`
calls: the fold of `keyInsert` over the call tags. -/
theorem applyOps_keys (compress decompress : List Nat → List Nat) :
    ∀ (ops : List SetTableOp) (st : WriterState),
      (applyOps compress decompress st ops).tables.map Prod.fst
        = (ops.map SetTableOp.tag).foldl keyInsert (st.tables.map Prod.fst) := by
  intro ops
  induction ops with
  | nil => intro st; rfl
  | cons o rest ih =>
    intro st
    have hfold : applyOps compress decompress st (o :: rest)
        = applyOps compress decompress
            (setTable compress decompress st o.tag o.data o.origLength o.origChecksum o.compLength)
            rest := rfl
    rw [hfold, ih, List.map_cons, List.foldl_cons, setTable_keys]

/-- Folding `keyInsert` preserves key distinctness. -/
theorem foldl_keyInsert_nodup :
    ∀ (ts ks : List String), ks.Nodup → (ts.foldl keyInsert ks).Nodup := by
  intro ts
  induction ts with
  | nil => intro ks h; exact h
  | cons t rest ih =>
    intro ks h
    rw [List.foldl_cons]
    apply ih
    unfold keyInsert
    by_cases hm : t ∈ ks
    · rwa [if_pos hm]
    · rw [if_neg hm]
      rw [List.nodup_append]
      exact ⟨h, List.nodup_singleton t, by simpa using fun hmem => hm hmem⟩

/-- Folding `keyInsert` accumulates exactly the set of folded keys. -/
theorem foldl_keyInsert_toFinset :
    ∀ (ts ks : List String),
      (ts.foldl keyInsert ks).toFinset = ks.toFinset ∪ ts.toFinset := by
  intro ts
  induction ts with
  | nil => intro ks; simp
  | cons t rest ih =>
    intro ks
    rw [List.foldl_cons, ih, List.toFinset_cons]
    have hkt : (keyInsert ks t).toFinset = insert t ks.toFinset := by
      unfold keyInsert
      by_cases hm : t ∈ ks
      · rw [if_pos hm]
        exact (Finset.insert_eq_self.mpr (List.mem_toFinset.mpr hm)).symm
      · rw [if_neg hm]
        rw [List.toFinset_append]
        ext x
        simp [or_comm]
    rw [hkt]
    ext x
    simp only [Finset.mem_union, Finset.mem_insert]
    tauto

/-- `setTable` and hence `applyOps` never touch the declared table count. -/
theorem applyOps_numTables (compress decompress : List Nat → List Nat) :
    ∀ (ops : List SetTableOp) (st : WriterState),
      (applyOps compress decompress st ops).numTables = st.numTables := by
  intro ops
  induction ops with
  | nil => intro st; rfl
  | cons o rest ih =>
    intro st
    have hfold : applyOps compress decompress st (o :: rest)
        = applyOps compress decompress
            (setTable compress decompress st o.tag o.data o.origLength o.origChecksum o.compLength)
            rest := rfl
    rw [hfold, ih]
    unfold setTable
    split <;> rfl

/-- C8: the writer accepts `setTable` calls in any order without error
(`setTable` is total in this embedding, no count check happens before
close), and the table-count check at the top of `close()` fails exactly
when the number of distinct tags that were set differs from the declared
`numTables`; permuting the `setTable` calls cannot change that outcome. -/
theorem writer_close_table_count (compress decompress : List Nat → List Nat)
    (numTables : Nat) (recalc : Bool) (ops ops' : List SetTableOp)
    (hperm : ops.Perm ops') :
    (exceptIsError (closeTablesCheck
        (applyOps compress decompress (WOFFWriterInit numTables recalc) ops)) = true
      ↔ (ops.map SetTableOp.tag).toFinset.card ≠ numTables)
    ∧ exceptIsError (closeTablesCheck
        (applyOps compress decompress (WOFFWriterInit numTables recalc) ops))
      = exceptIsError (closeTablesCheck
        (applyOps compress decompress (WOFFWriterInit numTables recalc) ops')) := by
  have hlen : ∀ os : List SetTableOp,
      (applyOps compress decompress (WOFFWriterInit numTables recalc) os).tables.length
        = (os.map SetTableOp.tag).toFinset.card := by
    intro os
    have h1 : (applyOps compress decompress (WOFFWriterInit numTables recalc) os).tables.length
        = ((applyOps compress decompress (WOFFWriterInit numTables recalc) os).tables.map Prod.fst).length := by
      rw [List.length_map]
    rw [h1, applyOps_keys]
    have hnil : (WOFFWriterInit numTables recalc).tables.map Prod.fst = [] := rfl
    rw [hnil]
    have hnd : ((os.map SetTableOp.tag).foldl keyInsert []).Nodup :=
      foldl_keyInsert_nodup _ [] (List.nodup_nil)
    rw [← List.toFinset_card_of_nodup hnd, foldl_keyInsert_toFinset]
    simp
  have hcheck : ∀ os : List SetTableOp,
      exceptIsError (closeTablesCheck
        (applyOps compress decompress (WOFFWriterInit numTables recalc) os)) = true
      ↔ (os.map SetTableOp.tag).toFinset.card ≠ numTables := by
    intro os
    unfold closeTablesCheck
    have hnum : (applyOps compress decompress (WOFFWriterInit numTables recalc) os).numTables
        = numTables :=
      (applyOps_numTables compress decompress os (WOFFWriterInit numTables recalc)).trans rfl
    rw [hnum]
    by_cases h : numTables
        ≠ (applyOps compress decompress (WOFFWriterInit numTables recalc) os).tables.length
    · rw [if_pos h]
      simp only [exceptIsError]
      rw [hlen] at h
      constructor
      · intro _
        exact fun hc => h hc.symm
      · intro _
        trivial
    · rw [if_neg h]
      simp only [exceptIsError]
      rw [hlen] at h
      constructor
      · intro hfalse
        exact absurd hfalse (by simp)
      · intro hc
        exact absurd hc (by omega)
  have hcard : (ops.map SetTableOp.tag).toFinset.card
      = (ops'.map SetTableOp.tag).toFinset.card := by
    rw [List.toFinset_eq_of_perm _ _ (hperm.map SetTableOp.tag)]
  refine ⟨hcheck ops, ?_⟩
  have h1 := hcheck ops
  have h2 := hcheck ops'
  rw [hcard] at h1
  cases hb : exceptIsError (closeTablesCheck
      (applyOps compress decompress (WOFFWriterInit numTables recalc) ops))
  · cases hb' : exceptIsError (closeTablesCheck
        (applyOps compress decompress (WOFFWriterInit numTables recalc) ops'))
    · rfl
    · exact absurd (h1.mpr (h2.mp hb')) (by rw [hb]; simp)
  · exact (h2.mpr (h1.mp hb)).symm

/-- Witness for C8 with a single `setTable` call against `numTables = 1`. -/
theorem writer_close_table_count_witness :
    (exceptIsError (closeTablesCheck
        (applyOps (fun l => l) (fun l => l) (WOFFWriterInit 1 true)
          [⟨"aaaa", [1], none, none, none⟩])) = true
      ↔ ([⟨"aaaa", [1], none, none, none⟩].map SetTableOp.tag).toFinset.card ≠ 1)
    ∧ exceptIsError (closeTablesCheck
        (applyOps (fun l => l) (fun l => l) (WOFFWriterInit 1 true)
          [⟨"aaaa", [1], none, none, none⟩]))
      = exceptIsError (closeTablesCheck
        (applyOps (fun l => l) (fun l => l) (WOFFWriterInit 1 true)
          [⟨"aaaa", [1], none, none, none⟩])) :=
  writer_close_table_count (fun l => l) (fun l => l) 1 true
    [⟨"aaaa", [1], none, none, none⟩] [⟨"aaaa", [1], none, none, none⟩]
    (List.Perm.refl _)

/-- C1: for every set of tables including `head` (tags distinct, as in the
writer's tag-keyed dict), the checkSumAdjustment computed by
`_handleHeadChecksum` satisfies: the sum of every table's original checksum,
plus the checksum of the virtual SFNT directory bytes, plus the adjustment,
reduces to `0xB1B0AFBA` modulo `2^32`. -/
theorem headChecksum_adjustment (flavor : List Nat) (tables : List WriterTable)
    (_hhead : "head" ∈ tables.map WriterTable.tag)
    (_hnodup : (tables.map WriterTable.tag).Nodup) :
    ((tables.map (fun t => t.origChecksum)).sum
      + calcChecksum (virtualSFNTDirectory flavor tables)
      + headCheckSumAdjustment flavor tables) % 0x100000000 = 0xb1b0afba := by
  unfold headCheckSumAdjustment totalChecksumSum
  generalize (tables.map (fun t => t.origChecksum)).sum
    + calcChecksum (virtualSFNTDirectory flavor tables) = S
  omega

/-- Witness for C1 on a two-table set containing `head`. -/
theorem headChecksum_adjustment_witness :
    ((([⟨0, "head", 11, 54⟩, ⟨1, "cmap", 22, 120⟩] : List WriterTable).map
          (fun t => t.origChecksum)).sum
      + calcChecksum (virtualSFNTDirectory [0, 1, 0, 0]
          [⟨0, "head", 11, 54⟩, ⟨1, "cmap", 22, 120⟩])
      + headCheckSumAdjustment [0, 1, 0, 0]
          [⟨0, "head", 11, 54⟩, ⟨1, "cmap", 22, 120⟩]) % 0x100000000
      = 0xb1b0afba :=
  headChecksum_adjustment [0, 1, 0, 0] [⟨0, "head", 11, 54⟩, ⟨1, "cmap", 22, 120⟩]
    (by decide) (by decide)

/-- Unpacking a 44-byte buffer succeeds and reads `numTables` from bytes
12-13. -/
theorem unpackWOFFHeader_ok (b : List Nat) (h : b.length = woffHeaderSize) :
    ∃ hd, unpackWOFFHeader b = .ok hd ∧ hd.numTables = u16 ((b.drop 12).take 2) := by
  unfold unpackWOFFHeader
  rw [if_pos h]
  exact ⟨_, rfl, rfl⟩

/-- The reader's directory loop succeeds whenever the file extends past the
last entry it reads. -/
theorem readWOFFEntries_ok (file : List Nat) :
    ∀ (n pos : Nat), pos + woffDirectoryEntrySize * n ≤ file.length →
      ∃ es, readWOFFEntries file n pos = .ok es := by
  intro n
  induction n with
  | zero => intro pos _; exact ⟨[], rfl⟩
  | succ k ih =>
    intro pos h
    have hslice : ((file.drop pos).take woffDirectoryEntrySize).length
        = woffDirectoryEntrySize := by
      simp only [List.length_take, List.length_drop]
      unfold woffDirectoryEntrySize at *
      omega
    have hub : unpackWOFFDirEntry ((file.drop pos).take woffDirectoryEntrySize)
        = .ok { tag := bytesToTag (((file.drop pos).take woffDirectoryEntrySize).take 4)
              , offset := i32be ((((file.drop pos).take woffDirectoryEntrySize).drop 4).take 4)
              , compLength := i32be ((((file.drop pos).take woffDirectoryEntrySize).drop 8).take 4)
              , origLength := i32be ((((file.drop pos).take woffDirectoryEntrySize).drop 12).take 4)
              , origChecksum := i32be ((((file.drop pos).take woffDirectoryEntrySize).drop 16).take 4) } := by
      unfold unpackWOFFDirEntry
      rw [if_pos hslice]
    rcases ih (pos + woffDirectoryEntrySize)
        (by unfold woffDirectoryEntrySize at *; omega) with ⟨es, hes⟩
    unfold readWOFFEntries
    rw [hub, hes]
    exact ⟨_, rfl⟩

/-- C3 counterexample: the claim says construction fails whenever the first
4 bytes are not `wOFF`, but a 44-byte input starting with `XXXX` (bytes
88,88,88,88) constructs successfully — `WOFFReader.__init__` contains no
signature check. -/
theorem readerInit_bad_signature_cex :
    tagBytes "wOFF" = [119, 79, 70, 70]
    ∧ ([88, 88, 88, 88] ++ List.replicate 40 0).take 4 ≠ [119, 79, 70, 70]
    ∧ exceptIsOk (WOFFReaderInit ([88, 88, 88, 88] ++ List.replicate 40 0)) = true := by
  refine ⟨rfl, by decide, ?_⟩
  rfl

/-- C3 (amended): reader construction performs no signature validation —
it succeeds on every input long enough for the 44-byte header and the
declared number of 20-byte directory entries, whatever the first 4 bytes
are. -/
theorem readerInit_no_signature_check (file : List Nat)
    (h44 : woffHeaderSize ≤ file.length)
    (hdir : woffHeaderSize + woffDirectoryEntrySize * u16 ((file.drop 12).take 2)
        ≤ file.length) :
    exceptIsOk (WOFFReaderInit file) = true := by
  have hlen : (file.take woffHeaderSize).length = woffHeaderSize := by
    simp only [List.length_take]
    unfold woffHeaderSize at *
    omega
  obtain ⟨hd, hH, hnum⟩ := unpackWOFFHeader_ok (file.take woffHeaderSize) hlen
  have htake : ((file.take woffHeaderSize).drop 12).take 2 = (file.drop 12).take 2 := by
    unfold woffHeaderSize
    rw [List.drop_take, List.take_take]
    norm_num
  rcases readWOFFEntries_ok file hd.numTables woffHeaderSize
      (by rw [hnum, htake]; exact hdir) with ⟨es, hes⟩
  unfold WOFFReaderInit
  rw [hH]
  show exceptIsOk
      (match readWOFFEntries file hd.numTables woffHeaderSize with
        | Except.error e => Except.error e
        | Except.ok entries =>
          Except.ok (WOFFReaderState.mk hd
            (entries.foldl (fun t e => assocSet t e.tag e) [])))
    = true
  rw [hes]
  rfl

/-- Witness for C3 (amended): an all-zero 44-byte file (signature is not
`wOFF`) constructs successfully. -/
theorem readerInit_no_signature_check_witness :
    exceptIsOk (WOFFReaderInit (List.replicate 44 0)) = true :=
  readerInit_no_signature_check (List.replicate 44 0) (by decide) (by decide)

/-- An entry with an out-of-range offset contributes its diagnostic to the
offset-validity test's output. -/
theorem offValidLoop_mem (minOffset dataLength : Nat) :
    ∀ (dir : List SFNTDirEntry) (e : SFNTDirEntry), e ∈ dir →
      (e.offset < minOffset ∨ dataLength < e.offset) →
      offsetMsg e.tag ∈ offValidLoop minOffset dataLength dir := by
  intro dir
  induction dir with
  | nil => intro e he _; cases he
  | cons a rest ih =>
    intro e he hcond
    rcases List.mem_cons.mp he with rfl | hmem
    · unfold offValidLoop
      rcases hcond with h1 | h2
      · rw [if_pos h1]
        simp
      · rw [if_pos h2]
        simp
    · unfold offValidLoop
      have hrec := ih e hmem hcond
      simp [List.mem_append, hrec]

/-- An entry whose end runs past the buffer contributes its diagnostic to
the length-validity test's output. -/
theorem lenValidLoop_mem (dataLength : Nat) :
    ∀ (dir : List SFNTDirEntry) (e : SFNTDirEntry), e ∈ dir →
      dataLength < e.offset + e.length →
      lengthMsg e.tag ∈ lenValidLoop dataLength dir := by
  intro dir
  induction dir with
  | nil => intro e he _; cases he
  | cons a rest ih =>
    intro e he hcond
    rcases List.mem_cons.mp he with rfl | hmem
    · unfold lenValidLoop
      rw [if_pos hcond]
      simp
    · unfold lenValidLoop
      have hrec := ih e hmem hcond
      simp [List.mem_append, hrec]

/-- C5: whenever the parsed directory holds an entry whose offset is below
the end of the header plus directory, or past the buffer end, or whose
`offset + length` exceeds the buffer, the validator returns exactly the
offset- and length-validity diagnostics — a nonempty list containing a
diagnostic for that entry — and never reaches the padding, gap or checksum
checks. -/
theorem conformance_early_exit (data : List Nat) (numTables : Nat)
    (dir : List SFNTDirEntry)
    (hparse : parseSFNT data = .ok (numTables, dir))
    (e : SFNTDirEntry) (he : e ∈ dir)
    (hbad : e.offset < sfntDirectorySize + sfntDirectoryEntrySize * dir.length
        ∨ data.length < e.offset
        ∨ data.length < e.offset + e.length) :
    checkSFNTConformance data
        = .ok (testOffsetValidity data.length dir ++ testLengthValidity data.length dir)
    ∧ testOffsetValidity data.length dir ++ testLengthValidity data.length dir ≠ []
    ∧ (offsetMsg e.tag
          ∈ testOffsetValidity data.length dir ++ testLengthValidity data.length dir
        ∨ lengthMsg e.tag
          ∈ testOffsetValidity data.length dir ++ testLengthValidity data.length dir) := by
  have hmem : offsetMsg e.tag ∈ testOffsetValidity data.length dir
      ∨ lengthMsg e.tag ∈ testLengthValidity data.length dir := by
    rcases hbad with h | h | h
    · exact Or.inl (offValidLoop_mem _ _ dir e he (Or.inl h))
    · exact Or.inl (offValidLoop_mem _ _ dir e he (Or.inr h))
    · exact Or.inr (lenValidLoop_mem _ dir e he h)
  have hne : testOffsetValidity data.length dir ++ testLengthValidity data.length dir ≠ [] := by
    rcases hmem with h | h
    · exact List.ne_nil_of_mem (List.mem_append_left _ h)
    · exact List.ne_nil_of_mem (List.mem_append_right _ h)
  refine ⟨?_, hne, ?_⟩
  · unfold checkSFNTConformance
    rw [hparse]
    show (if testOffsetValidity data.length dir ++ testLengthValidity data.length dir = []
        then _ else Except.ok (testOffsetValidity data.length dir
          ++ testLengthValidity data.length dir))
      = Except.ok (testOffsetValidity data.length dir ++ testLengthValidity data.length dir)
    rw [if_neg hne]
  · rcases hmem with h | h
    · exact Or.inl (List.mem_append_left _ h)
    · exact Or.inr (List.mem_append_right _ h)

/-- Witness for C5: a 28-byte buffer whose single directory entry has
offset 0, below the 28-byte end of the header plus directory. -/
theorem conformance_early_exit_witness :
    checkSFNTConformance
        ([0, 1, 0, 0, 0, 1, 0, 0, 0, 0, 0, 0] ++ [97, 97, 97, 97] ++ List.replicate 12 0)
      = .ok (testOffsetValidity 28 [⟨"aaaa", 0, 0, 0⟩]
          ++ testLengthValidity 28 [⟨"aaaa", 0, 0, 0⟩])
    ∧ testOffsetValidity 28 [⟨"aaaa", 0, 0, 0⟩]
        ++ testLengthValidity 28 [⟨"aaaa", 0, 0, 0⟩] ≠ []
    ∧ (offsetMsg "aaaa"
          ∈ testOffsetValidity 28 [⟨"aaaa", 0, 0, 0⟩]
            ++ testLengthValidity 28 [⟨"aaaa", 0, 0, 0⟩]
        ∨ lengthMsg "aaaa"
          ∈ testOffsetValidity 28 [⟨"aaaa", 0, 0, 0⟩]
            ++ testLengthValidity 28 [⟨"aaaa", 0, 0, 0⟩]) :=
  conformance_early_exit
    ([0, 1, 0, 0, 0, 1, 0, 0, 0, 0, 0, 0] ++ [97, 97, 97, 97] ++ List.replicate 12 0)
    1 [⟨"aaaa", 0, 0, 0⟩] (by rfl) ⟨"aaaa", 0, 0, 0⟩ (by decide) (by decide)

/-- The gap loop, started after its first entry, reports exactly the
adjacent pairs whose gap check fires. -/
theorem gapsLoop_adjPairs :
    ∀ (l : List (Nat × SFNTDirEntry)) (x : Nat × SFNTDirEntry),
      gapsLoop (some (x.2.tag, x.1 + x.2.length)) l
        = (adjPairs (x :: l)).filterMap gapCheck := by
  intro l
  induction l with
  | nil => intro x; rfl
  | cons y rest ih =>
    intro x
    obtain ⟨xo, xe⟩ := x
    obtain ⟨yo, ye⟩ := y
    show (if yo - (xo + xe.length) > 3 then [gapMsg xe.tag ye.tag] else [])
        ++ gapsLoop (some (ye.tag, yo + ye.length)) rest
      = List.filterMap gapCheck (((xo, xe), (yo, ye)) :: adjPairs ((yo, ye) :: rest))
    rw [ih (yo, ye), List.filterMap_cons]
    by_cases hg : yo - (xo + xe.length) > 3
    · rw [if_pos hg]
      show gapMsg xe.tag ye.tag :: _ = _
      unfold gapCheck
      rw [if_pos hg]
      rfl
    · rw [if_neg hg]
      show (adjPairs ((yo, ye) :: rest)).filterMap gapCheck = _
      unfold gapCheck
      rw [if_neg hg]

/-- The messages of `_testGaps` in closed form: one `gapCheck` result per
adjacent pair of the offset-sorted directory. -/
theorem testGaps_eq_filterMap (dir : List SFNTDirEntry) :
    testGaps dir = (adjPairs (sortedByOffset dir)).filterMap gapCheck := by
  unfold testGaps
  cases hs : sortedByOffset dir with
  | nil => rfl
  | cons x l =>
    obtain ⟨xo, xe⟩ := x
    show gapsLoop (some (xe.tag, xo + xe.length)) l = _
    exact gapsLoop_adjPairs l (xo, xe)

/-- Counting lemma: the gap test emits as many messages as there are
adjacent pairs with a gap above 3 bytes. -/
theorem filterMap_gapCheck_length :
    ∀ l : List ((Nat × SFNTDirEntry) × (Nat × SFNTDirEntry)),
      (l.filterMap gapCheck).length
        = (l.filter (fun p => decide (p.2.1 - (p.1.1 + p.1.2.length) > 3))).length := by
  intro l
  induction l with
  | nil => rfl
  | cons p rest ih =>
    rw [List.filterMap_cons, List.filter_cons]
    by_cases hg : p.2.1 - (p.1.1 + p.1.2.length) > 3
    · have h1 : gapCheck p = some (gapMsg p.1.2.tag p.2.2.tag) := by
        unfold gapCheck
        rw [if_pos hg]
      rw [h1, if_pos (by simpa using hg)]
      simp [ih]
    · have h1 : gapCheck p = none := by
        unfold gapCheck
        rw [if_neg hg]
      rw [h1, if_neg (by simpa using hg)]
      exact ih

/-- C6: processing the directory sorted by offset, the gap test emits
exactly one diagnostic (naming both adjacent tables) per consecutive pair
whose gap exceeds 3 bytes and none otherwise: its output is the
`filterMap` of the per-pair gap check over the adjacent sorted pairs, its
count equals the count of over-3 gaps, every over-3 pair's diagnostic is
present, and in particular a 5-byte gap yields exactly one diagnostic
naming both tables while a 3-byte gap yields none. -/
theorem testGaps_exact (dir : List SFNTDirEntry) :
    testGaps dir = (adjPairs (sortedByOffset dir)).filterMap gapCheck
    ∧ (testGaps dir).length
        = ((adjPairs (sortedByOffset dir)).filter
            (fun p => decide (p.2.1 - (p.1.1 + p.1.2.length) > 3))).length
    ∧ (∀ p ∈ adjPairs (sortedByOffset dir),
        p.2.1 - (p.1.1 + p.1.2.length) > 3 →
          gapMsg p.1.2.tag p.2.2.tag ∈ testGaps dir)
    ∧ testGaps [⟨"aaaa", 0, 44, 1⟩, ⟨"bbbb", 0, 50, 1⟩] = [gapMsg "aaaa" "bbbb"]
    ∧ testGaps [⟨"aaaa", 0, 44, 1⟩, ⟨"cccc", 0, 48, 1⟩] = [] := by
  refine ⟨testGaps_eq_filterMap dir, ?_, ?_, by decide, by decide⟩
  · rw [testGaps_eq_filterMap dir]
    exact filterMap_gapCheck_length _
  · intro p hp hgap
    rw [testGaps_eq_filterMap dir]
    refine List.mem_filterMap.mpr ⟨p, hp, ?_⟩
    unfold gapCheck
    rw [if_pos hgap]

/-- Witness for C6: in the 5-byte-gap layout the diagnostic naming both
tables is emitted. -/
theorem testGaps_exact_witness :
    gapMsg "aaaa" "bbbb" ∈ testGaps [⟨"aaaa", 0, 44, 1⟩, ⟨"bbbb", 0, 50, 1⟩] :=
  (testGaps_exact [⟨"aaaa", 0, 44, 1⟩, ⟨"bbbb", 0, 50, 1⟩]).2.2.1
    ((44, ⟨"aaaa", 0, 44, 1⟩), (50, ⟨"bbbb", 0, 50, 1⟩)) (by decide) (by decide)

/-- C7 counterexample: with directory order `[aaaa at 45, bbbb at 44]` the
only unaligned table is `aaaa` (offset 45), whose predecessor in offset
order is `bbbb` — yet the emitted diagnostic names `None` (the predecessor
in iteration order), not `bbbb`, refuting attribution by offset order. -/
theorem testPadding_offset_order_cex :
    testPadding [⟨"aaaa", 0, 45, 0⟩, ⟨"bbbb", 0, 44, 0⟩] = [paddingMsg none]
    ∧ (sortedByOffset [⟨"aaaa", 0, 45, 0⟩, ⟨"bbbb", 0, 44, 0⟩]).map (fun p => p.2.tag)
        = ["bbbb", "aaaa"]
    ∧ 45 % 4 ≠ 0
    ∧ 44 % 4 = 0
    ∧ paddingMsg (some "bbbb") ∉ testPadding [⟨"aaaa", 0, 45, 0⟩, ⟨"bbbb", 0, 44, 0⟩] := by
  decide

/-- The padding loop in closed form: one `paddingCheck` result per entry
paired with the tag of the entry iterated just before it. -/
theorem paddingLoop_zip :
    ∀ (dir : List SFNTDirEntry) (prev : Option String),
      paddingLoop prev dir
        = (List.zip (prev :: dir.map (fun e => some e.tag)) dir).filterMap paddingCheck := by
  intro dir
  induction dir with
  | nil => intro prev; rfl
  | cons e rest ih =>
    intro prev
    show (if e.offset % 4 ≠ 0 then [paddingMsg prev] else []) ++ paddingLoop (some e.tag) rest
      = List.filterMap paddingCheck
          ((prev, e)
            :: List.zip (some e.tag :: rest.map (fun x : SFNTDirEntry => some x.tag)) rest)
    rw [ih (some e.tag), List.filterMap_cons]
    by_cases hp : e.offset % 4 ≠ 0
    · rw [if_pos hp]
      show paddingMsg prev :: _ = _
      unfold paddingCheck
      rw [if_pos hp]
      rfl
    · rw [if_neg hp]
      show List.filterMap paddingCheck
          (List.zip (some e.tag :: rest.map (fun x : SFNTDirEntry => some x.tag)) rest) = _
      unfold paddingCheck
      rw [if_neg hp]

/-- Counting lemma: the padding test emits one message per unaligned
entry. -/
theorem paddingLoop_length :
    ∀ (dir : List SFNTDirEntry) (prev : Option String),
      (paddingLoop prev dir).length
        = (dir.filter (fun e => decide (e.offset % 4 ≠ 0))).length := by
  intro dir
  induction dir with
  | nil => intro prev; rfl
  | cons e rest ih =>
    intro prev
    show ((if e.offset % 4 ≠ 0 then [paddingMsg prev] else [])
        ++ paddingLoop (some e.tag) rest).length = _
    rw [List.filter_cons]
    by_cases hp : e.offset % 4 ≠ 0
    · rw [if_pos hp, if_pos (by simpa using hp)]
      simp [ih (some e.tag)]
    · rw [if_neg hp, if_neg (by simpa using hp)]
      simp [ih (some e.tag)]

/-- C7 (amended): each entry whose offset is not a multiple of 4 produces
exactly one diagnostic, attributed to the previous table in directory
(iteration) order — or to `None` when the unaligned entry comes first —
not to the previous table in offset order. -/
theorem testPadding_prev_iteration_order (dir : List SFNTDirEntry) :
    testPadding dir
      = (List.zip (none :: dir.map (fun e => some e.tag)) dir).filterMap paddingCheck
    ∧ (testPadding dir).length
        = (dir.filter (fun e => decide (e.offset % 4 ≠ 0))).length :=
  ⟨paddingLoop_zip dir none, paddingLoop_length dir none⟩

end WoffTools
